import Mathlib

/-!
Verification of the saturating arithmetic library (StefanHamminga/saturating).

The development shallowly embeds the integral arithmetic of the repository
over `ℤ`: machine values are modelled by mathematical integers together with
explicit ranges for the C++ types that hold them, and every C++ comparison or
conversion between two different integral types goes through the *usual
arithmetic conversions*, modelled here by a wrap-around conversion into the
common comparison type (value-preserving exactly when the value is
representable in it, modular otherwise).  Fallible C++ expressions (native
integer division by zero, signed overflow) are modelled with `Option`.
Floating-point operations appear only at concrete inputs at which every
intermediate IEEE single-precision value is exactly representable, so the
exact-rational arithmetic used for them hides no rounding.
-/

/-- C++ native integer division of `a` by `b`: truncation toward zero.
Encoded by `Nat` division on the absolute values with the sign of the result
fixed by the operand signs.  `cppDiv a 0 = 0` is a placeholder value: the call
sites that can reach a zero divisor return `none` instead of using it. -/
def cppDiv (a b : ℤ) : ℤ :=
  if (a < 0) ↔ (b < 0) then ((a.natAbs / b.natAbs : ℕ) : ℤ)
  else -((a.natAbs / b.natAbs : ℕ) : ℤ)

/-- Conversion of an integer into a C++ integral type with range `[lo, hi]`:
modular wrap-around into the range.  It is value-preserving exactly when the
value already lies in `[lo, hi]`; this models both `static_cast` to an
integral type and the operand conversions performed by the usual arithmetic
conversions before a mixed-type comparison or arithmetic operation. -/
def wrapCast (lo hi v : ℤ) : ℤ := lo + (v - lo) % (hi - lo + 1)

/-- Modelled from the spec: `minmax(lo, v, hi)` comes from the external
`arithmetic_type_tools` dependency, whose source is not part of this
repository.  Spec section 4.3 gives the clamp it performs:
`value < MIN ? MIN : (value > MAX ? MAX : value)`. -/
def minmaxI (lo v hi : ℤ) : ℤ :=
  if v < lo then lo else if hi < v then hi else v

/-- The rounding-bias numerator of `saturating::divide` from
`src/functions.hpp` line 202: `a - b/2` when the operand signs differ
(`(a < 0) ^ (b < 0)`), else `a + b/2`, with the sign tests on the original
operands but the arithmetic performed after conversion into the common
operand type `[cLo, cHi]` (the widened type `TO` declared on line 194 is
never used).  The value returned here is the exact integer result; `divideF`
checks it against `[cLo, cHi]`. -/
def divNum (cLo cHi a b : ℤ) : ℤ :=
  if (a < 0) ↔ (b < 0) then wrapCast cLo cHi a + cppDiv (wrapCast cLo cHi b) 2
  else wrapCast cLo cHi a - cppDiv (wrapCast cLo cHi b) 2

/-- `saturating::divide<T, MIN, MAX>(a, b)` from `src/functions.hpp` lines
193-204, both operands integral:
`minmax(MIN, ((a < 0) ^ (b < 0)) ? ((a - b/2)/b) : ((a + b/2)/b), MAX)`.
All arithmetic happens in the unwidened common operand type `[cLo, cHi]`:
 * a zero converted divisor is a native integer division by zero - undefined
   behaviour (a hardware fault on common targets) - modelled as `none`;
 * a bias numerator `a ± b/2` outside `[cLo, cHi]` wraps modularly when the
   common type is unsigned (`0 ≤ cLo`) and is undefined behaviour (signed
   overflow, modelled `none`) otherwise;
 * a quotient outside `[cLo, cHi]` (signed `cLo / -1`) is likewise undefined
   behaviour, modelled `none`.
`b/2` itself can never leave the range, and in the unsigned wrapped branch
the quotient of two in-range non-negative values is again in range. -/
def divideF (cLo cHi MIN MAX a b : ℤ) : Option ℤ :=
  if wrapCast cLo cHi b = 0 then none
  else if cLo ≤ divNum cLo cHi a b ∧ divNum cLo cHi a b ≤ cHi then
    (if cLo ≤ cppDiv (divNum cLo cHi a b) (wrapCast cLo cHi b) ∧
        cppDiv (divNum cLo cHi a b) (wrapCast cLo cHi b) ≤ cHi then
      some (minmaxI MIN (cppDiv (divNum cLo cHi a b) (wrapCast cLo cHi b)) MAX)
     else none)
  else if 0 ≤ cLo then
    some (minmaxI MIN
      (cppDiv (wrapCast cLo cHi (divNum cLo cHi a b)) (wrapCast cLo cHi b)) MAX)
  else none

/-- `xint_sat_t<T, min, max>::divide(a, b)` from `src/saturating_types.hpp`
lines 197-207, both operands integral, in its `sizeof(type) >= sizeof(UA)`
branch: `static_cast<type>(a / b)` - native truncating division, with no
rounding-bias term and no clamping (the cast is exact whenever the quotient
fits the representation, as it does in every instance proved below).
Division by zero is undefined behaviour, modelled as `none`. -/
def divideX (a b : ℤ) : Option ℤ :=
  if b = 0 then none else some (cppDiv a b)

/-- The hardware fast path of `saturating::add<T, MIN, MAX>(a, b)` from
`src/functions.hpp` lines 74-93, both operands signed integral and
`[MIN, MAX]` the natural bounds of `T` (the fast-path guard
`is_same_v<T, fit_all_t<T, UA, UB>>` makes the `static_cast<T>` on the
operands exact):
`__builtin_add_overflow(a, b, &temp) ? (b > a ? MIN : MAX) : temp`.
The builtin reports overflow exactly when `a + b` is outside `[MIN, MAX]`. -/
def addF (MIN MAX a b : ℤ) : ℤ :=
  if a + b < MIN ∨ MAX < a + b then (if a < b then MIN else MAX) else a + b

/-- The hardware fast path of `xint_sat_t::add(a, b)` from
`src/saturating_types.hpp` lines 107-125, same conditions:
`__builtin_add_overflow(a, b, &temp) ? (b > 0 ? max : min) : temp`. -/
def addX (MIN MAX a b : ℤ) : ℤ :=
  if a + b < MIN ∨ MAX < a + b then (if 0 < b then MAX else MIN) else a + b

/-- `xint_sat_t<T, min, max>::clamp(val)` from `src/saturating_types.hpp`
lines 247-282 for an integral argument whose C++ type `U` has range
`[uLo, uHi]`, with `type`'s range `[tLo, tHi]` and `[cLo, cHi]` the common
comparison type produced by the usual arithmetic conversions for the pair
`(U, type)`:
 * the contained-range check
   `numeric_limits<U>::lowest() >= min && numeric_limits<U>::max() <= max`
   compares `U`'s limits with the bounds after conversion into the common
   type (wrapping for mixed signed/unsigned pairs); when it passes, the
   clamp is a plain `static_cast<type>(val)`, i.e. a wrap into `[tLo, tHi]`;
 * `if constexpr (min > max)` compares the two same-typed bounds exactly;
 * the comparison chains compare `val` and the bounds after conversion into
   the common type, returning the untouched bound or
   `static_cast<type>(val)`. -/
def clampX (cLo cHi uLo uHi tLo tHi MIN MAX v : ℤ) : ℤ :=
  if wrapCast cLo cHi MIN ≤ wrapCast cLo cHi uLo ∧
      wrapCast cLo cHi uHi ≤ wrapCast cLo cHi MAX then
    wrapCast tLo tHi v
  else if MAX < MIN then
    (if wrapCast cLo cHi v < wrapCast cLo cHi MAX then MAX
     else if wrapCast cLo cHi MIN < wrapCast cLo cHi v then MIN
     else wrapCast tLo tHi v)
  else
    (if wrapCast cLo cHi v < wrapCast cLo cHi MIN then MIN
     else if wrapCast cLo cHi MAX < wrapCast cLo cHi v then MAX
     else wrapCast tLo tHi v)

/-- `xint_sat_t::from(val)` from `src/saturating_types.hpp` lines 284-287:
`return { clamp(val) };`. -/
def fromX (cLo cHi uLo uHi tLo tHi MIN MAX v : ℤ) : ℤ :=
  clampX cLo cHi uLo uHi tLo tHi MIN MAX v

/-- The raw `xint_sat_t` constructor from `src/saturating_types.hpp` lines
88-89: `value{ static_cast<type>(val) }` - the value is stored after a plain
cast to the representation type (range `[tLo, tHi]`), with no use of the
bounds `MIN`/`MAX` and no clamping. -/
def ctorX (tLo tHi MIN MAX v : ℤ) : ℤ := wrapCast tLo tHi v

/-- `xint_sat_t::operator=(other)` from `src/saturating_types.hpp` line 229:
`value = clamp(other)` - assignment goes through `clamp`. -/
def opAssignX (cLo cHi uLo uHi tLo tHi MIN MAX v : ℤ) : ℤ :=
  clampX cLo cHi uLo uHi tLo tHi MIN MAX v

/-- Pre/post increment of `xint_sat_t` (`src/saturating_types.hpp` lines
209-217): `if (value < max - 1) ++value;`. -/
def incX (MAX v : ℤ) : ℤ := if v < MAX - 1 then v + 1 else v

/-- Pre/post decrement of `xint_sat_t` (`src/saturating_types.hpp` lines
219-227): `if (value > min + 1) --value;`. -/
def decX (MIN v : ℤ) : ℤ := if MIN + 1 < v then v - 1 else v

/-- C++ conversion of a floating value to an integral type: truncation toward
zero (floor for non-negative values, ceiling for negative ones). -/
def ratTrunc (q : ℚ) : ℤ := if 0 ≤ q then ⌊q⌋ else ⌈q⌉

/-- Rounding half away from zero, the behaviour of `std::lround`/`llround`
used by `saturating::round` (`src/utilities.hpp` lines 19-28), and also the
spec's wording in section 4.3: add 0.5 for non-negative input, subtract 0.5
for negative input, then truncate. -/
def roundHalfAwayQ (q : ℚ) : ℤ :=
  if 0 ≤ q then ratTrunc (q + 1/2) else ratTrunc (q - 1/2)

/-- `xint_sat_t::scale_from(val, in_min, in_max)` from
`src/saturating_types.hpp` lines 322-330 (floating `val`, integral source
range defaulted to `in_min = is_signed ? -1 : 0`, `in_max = 1`):
`temp = (val - in_min) * (next_up(max) - min) / (next_up(in_max) - in_min) + min`
followed by `static_cast<type>(temp + 0.5f)` (truncation toward zero).  The
integer differences are exact in the widened type; the floating arithmetic
is exact rational arithmetic, faithful at the concrete inputs proved below,
where every intermediate single-precision value is exactly representable. -/
def scaleFromFD (MIN MAX : ℤ) (signed : Bool) (val : ℚ) : ℤ :=
  let inMin : ℤ := if signed then -1 else 0
  let inMax : ℤ := 1
  ratTrunc ((val - (inMin : ℚ)) * ((MAX : ℚ) - (MIN : ℚ)) /
      ((inMax : ℚ) - (inMin : ℚ)) + (MIN : ℚ) + 1/2)

/-- `saturating::add<T, MIN, MAX>(a, b)` from `src/functions.hpp` lines 60-72
when exactly one operand is floating and `T` integral: the floating operand is
rounded by itself first (`temp = round<T>(a)`, i.e. `std::lround`, rounding
half away from zero) and the sum `temp + b` is then computed exactly in the
promoted integer type and clamped. -/
def addFMixed (MIN MAX : ℤ) (a : ℚ) (b : ℤ) : ℤ :=
  minmaxI MIN (roundHalfAwayQ a + b) MAX

/-- `saturating::add<T, MIN, MAX>(a, b)` from `src/functions.hpp` line 62 when
both operands are floating and `T` integral:
`minmax(MIN, round<T>(a + b), MAX)` - the rounding is applied to the sum. -/
def addFBoth (MIN MAX : ℤ) (a b : ℚ) : ℤ :=
  minmaxI MIN (roundHalfAwayQ (a + b)) MAX

/-! ## Arithmetic helper lemmas -/

/-- A wrap-around conversion is the identity on values already in range. -/
lemma wrapCastId (lo hi x : ℤ) (h1 : lo ≤ x) (h2 : x ≤ hi) :
    wrapCast lo hi x = x := by
  unfold wrapCast
  rw [Int.emod_eq_of_lt (by omega) (by omega)]
  omega

/-- Key `Nat` division identity behind the rounding bias: adding half the
divisor before dividing computes the floor of `A/B + 1/2`. -/
lemma natDivRound (A B : ℕ) : (A + B / 2) / B = (2 * A + B) / (2 * B) := by
  rw [← Nat.div_div_eq_div_mul]
  rw [Nat.add_comm (2 * A) B]
  rw [Nat.add_mul_div_left B A (by norm_num : 0 < 2)]
  rw [Nat.add_comm (B / 2) A]

lemma cppDivCoe (A B : ℕ) : cppDiv (A : ℤ) (B : ℤ) = ((A / B : ℕ) : ℤ) := by
  unfold cppDiv
  rw [if_pos (by omega)]
  simp

lemma cppDivNegCoe (A B : ℕ) :
    cppDiv (-(A : ℤ)) (B : ℤ) = -((A / B : ℕ) : ℤ) := by
  unfold cppDiv
  rcases Nat.eq_zero_or_pos A with hA | hA
  · subst hA; simp
  · rw [if_neg (by omega)]
    simp

lemma cppDivCoeNeg (A B : ℕ) :
    cppDiv (A : ℤ) (-(B : ℤ)) = -((A / B : ℕ) : ℤ) := by
  unfold cppDiv
  rcases Nat.eq_zero_or_pos B with hB | hB
  · subst hB; simp
  · rw [if_neg (by omega)]
    simp

lemma cppDivNegNeg (A B : ℕ) :
    cppDiv (-(A : ℤ)) (-(B : ℤ)) = ((A / B : ℕ) : ℤ) := by
  unfold cppDiv
  rcases Nat.eq_zero_or_pos A with hA | hA
  · subst hA; simp
  · rcases Nat.eq_zero_or_pos B with hB | hB
    · subst hB; simp
    · rw [if_pos (by omega)]
      simp

lemma floorHalfNat (A B : ℕ) (hB : 0 < B) :
    ⌊(A : ℚ) / B + 1/2⌋ = (((A + B / 2) / B : ℕ) : ℤ) := by
  have hB' : ((B : ℚ)) ≠ 0 := by positivity
  have h1 : (A : ℚ) / B + 1/2 =
      ((((2 * A + B : ℕ)) : ℤ) : ℚ) / (((2 * B : ℕ)) : ℚ) := by
    push_cast
    field_simp
    ring
  rw [h1, Rat.floor_intCast_div_natCast]
  rw [natDivRound]
  push_cast
  rfl

lemma roundPosQ (A B : ℕ) (hB : 0 < B) :
    roundHalfAwayQ ((A : ℚ) / B) = (((A + B / 2) / B : ℕ) : ℤ) := by
  have h0 : (0:ℚ) ≤ (A : ℚ) / B := by positivity
  unfold roundHalfAwayQ ratTrunc
  rw [if_pos h0, if_pos (by linarith)]
  exact floorHalfNat A B hB

lemma roundNegQ (A B : ℕ) (hB : 0 < B) :
    roundHalfAwayQ (-((A : ℚ) / B)) = -(((A + B / 2) / B : ℕ) : ℤ) := by
  rcases Nat.eq_zero_or_pos A with hA | hA
  · subst hA
    have h1 : (0 + B / 2) / B = 0 := by
      rw [Nat.zero_add]
      exact Nat.div_eq_of_lt (Nat.div_lt_self hB (by norm_num))
    rw [h1]
    norm_num [roundHalfAwayQ, ratTrunc]
  · have hq : (0:ℚ) < (A : ℚ) / B := by positivity
    unfold roundHalfAwayQ ratTrunc
    rw [if_neg (by linarith), if_neg (by linarith)]
    have h2 : -((A:ℚ)/B) - 1/2 = -((A:ℚ)/B + 1/2) := by ring
    rw [h2, Int.ceil_neg, floorHalfNat A B hB]

/-- The sign-dependent bias formula of `saturating::divide` computes, for
every nonzero divisor and overflow-free numerator, the nearest integer to
the exact quotient with ties rounded away from zero. -/
lemma divRoundEq (a b : ℤ) (hb : b ≠ 0) :
    cppDiv (if (a < 0) ↔ (b < 0) then a + cppDiv b 2 else a - cppDiv b 2) b =
      roundHalfAwayQ ((a : ℚ) / (b : ℚ)) := by
  have h2 : (2 : ℤ) = ((2 : ℕ) : ℤ) := rfl
  rcases lt_or_le a 0 with ha | ha <;> rcases lt_or_le b 0 with hbneg | hbpos
  · obtain ⟨A, hA, rfl⟩ : ∃ A : ℕ, 0 < A ∧ a = -(A : ℤ) :=
      ⟨(-a).toNat, by omega, by omega⟩
    obtain ⟨B, hB, rfl⟩ : ∃ B : ℕ, 0 < B ∧ b = -(B : ℤ) :=
      ⟨(-b).toNat, by omega, by omega⟩
    rw [if_pos (by omega)]
    rw [h2, cppDivNegCoe]
    have h3 : -(A : ℤ) + -((B / 2 : ℕ) : ℤ) = -(((A + B / 2 : ℕ)) : ℤ) := by
      push_cast
      ring
    rw [h3, cppDivNegNeg]
    push_cast
    rw [neg_div_neg_eq]
    rw [roundPosQ A B hB]
    push_cast
    rfl
  · obtain ⟨A, hA, rfl⟩ : ∃ A : ℕ, 0 < A ∧ a = -(A : ℤ) :=
      ⟨(-a).toNat, by omega, by omega⟩
    obtain ⟨B, hB, rfl⟩ : ∃ B : ℕ, 0 < B ∧ b = (B : ℤ) :=
      ⟨b.toNat, by omega, by omega⟩
    rw [if_neg (by omega)]
    rw [h2, cppDivCoe]
    have h3 : -(A : ℤ) - ((B / 2 : ℕ) : ℤ) = -(((A + B / 2 : ℕ)) : ℤ) := by
      push_cast
      ring
    rw [h3, cppDivNegCoe]
    push_cast
    rw [neg_div]
    rw [roundNegQ A B hB]
    push_cast
    rfl
  · obtain ⟨A, rfl⟩ : ∃ A : ℕ, a = (A : ℤ) := ⟨a.toNat, by omega⟩
    obtain ⟨B, hB, rfl⟩ : ∃ B : ℕ, 0 < B ∧ b = -(B : ℤ) :=
      ⟨(-b).toNat, by omega, by omega⟩
    rw [if_neg (by omega)]
    rw [h2, cppDivNegCoe]
    have h3 : (A : ℤ) - -((B / 2 : ℕ) : ℤ) = (((A + B / 2 : ℕ)) : ℤ) := by
      push_cast
      ring
    rw [h3, cppDivCoeNeg]
    push_cast
    rw [div_neg]
    rw [roundNegQ A B hB]
    push_cast
    rfl
  · obtain ⟨A, rfl⟩ : ∃ A : ℕ, a = (A : ℤ) := ⟨a.toNat, by omega⟩
    obtain ⟨B, hB, rfl⟩ : ∃ B : ℕ, 0 < B ∧ b = (B : ℤ) :=
      ⟨b.toNat, by omega, by omega⟩
    rw [if_pos (by omega)]
    rw [h2, cppDivCoe]
    have h3 : (A : ℤ) + ((B / 2 : ℕ) : ℤ) = (((A + B / 2 : ℕ)) : ℤ) := by
      push_cast
      ring
    rw [h3, cppDivCoe]
    push_cast
    rw [roundPosQ A B hB]
    push_cast
    rfl

/-! ## C1: division by zero -/

/-- C1: the spec states that `divide(a, 0)` saturates to `MAX` for a
non-negative dividend (so `from(5) / 0 == MAX`) and never faults.  The code
instead reaches a native integer division by zero (`(a + b/2)/b` in
`saturating::divide`, `a / b` in `xint_sat_t::divide`), which is undefined
behaviour / a hardware fault, modelled as `none`: at `a = 5, b = 0` (with
`int` operands, common type `int`) neither implementation produces a value,
let alone `MAX`. -/
theorem divide_by_zero_faults :
    divideF (-2147483648) 2147483647 (-128) 127 5 0 = none ∧
      divideX 5 0 = none := by
  constructor <;> decide

/-! ## C2: clamp keeps the stored value inside the bound interval -/

/-- C2: the claim states that for every instantiation and every input value
the clamp-path result lies in `[min(MIN,MAX), max(MIN,MAX)]`.  The
contained-range check compares the argument type's limits against the bounds
after the usual arithmetic conversions, which wrap for mixed signed/unsigned
operands: for `xint_sat_t<uint32_t, 10, 4294967295>` with an `int` argument
(common comparison type `unsigned int`), `numeric_limits<int>::lowest() >= min`
becomes `2147483648u >= 10u` - spuriously true - so the clamp degenerates to
a raw cast and `from(5)` stores 5, which is below `min(MIN, MAX) = 10`. -/
theorem clamp_contained_check_wraps :
    clampX 0 4294967295 (-2147483648) 2147483647 0 4294967295
        10 4294967295 5 = 5 ∧
    ¬(min (10:ℤ) 4294967295 ≤ 5) := by
  constructor <;> decide

/-! ## C3: the normalizing constructor and the textbook clamp -/

/-- C3: the claim states `from(v) = max(MIN, min(v, MAX))` for every
representation and every `v` in the sweep `[MIN-2, MAX+2]`.  For
`uint_sat32_t::from(-2)` with an `int` argument (`v = -2` is inside the
sweep), the contained-range check wraps `numeric_limits<int>::lowest()` to
`2147483648u`, passes spuriously, and `from` stores
`static_cast<uint32_t>(-2) = 4294967294` instead of the textbook clamp 0.
The claim's 8-bit unsigned examples `from(-5) = 0`, `from(260) = 255` and
`from(10) = 10` do hold: there the `uint8_t` bounds promote to `int` and
every comparison is exact. -/
theorem from_sweep_fails_u32 :
    fromX 0 4294967295 (-2147483648) 2147483647 0 4294967295
        0 4294967295 (-2) = 4294967294 ∧
    max (0:ℤ) (min (-2) 4294967295) = 0 ∧
    fromX (-2147483648) 2147483647 (-2147483648) 2147483647 0 255
        0 255 (-5) = 0 ∧
    fromX (-2147483648) 2147483647 (-2147483648) 2147483647 0 255
        0 255 260 = 255 ∧
    fromX (-2147483648) 2147483647 (-2147483648) 2147483647 0 255
        0 255 10 = 10 := by
  refine ⟨by decide, by decide, by decide, by decide, by decide⟩

/-! ## C4: direction of saturation on add overflow -/

/-- C4: the claim states that an overflowing add saturates toward `MAX`
unless the right operand is negative.  The hardware fast path of
`saturating::add` (functions.hpp) instead decides the direction with
`b > a`: at `a = 50, b = 100` over the natural 8-bit signed bound the sum 150
overflows, the right operand is positive, yet the code returns `MIN = -128`
(the claim requires `MAX = 127`).  The sibling implementation
`xint_sat_t::add` tests `b > 0` and returns 127 as the claim states, and
both implementations agree with the claim at its two boundary examples
`MAX + 1` and `MIN + (-1)`. -/
theorem add_fast_path_direction :
    addF (-128) 127 50 100 = -128 ∧
    addX (-128) 127 50 100 = 127 ∧
    addF (-128) 127 127 1 = 127 ∧
    addF (-128) 127 (-128) (-1) = -128 ∧
    addX (-128) 127 127 1 = 127 ∧
    addX (-128) 127 (-128) (-1) = -128 := by
  refine ⟨by decide, by decide, by decide, by decide, by decide, by decide⟩

/-! ## C5: divide rounds to nearest, ties away from zero -/

/-- C5 counterexample: the claim states that `divide(a, b)` (citing both
implementations) returns the clamp of the nearest integer to `a/b` with ties
away from zero.  The alternate implementation `xint_sat_t::divide` uses
native truncating division instead: at `a = 7, b = 2` it returns `some 3`,
while the nearest integer to `3.5` with the tie away from zero is 4 (and 4
is inside the 8-bit signed bound, so the clamp leaves it at 4). -/
theorem xint_divide_truncates :
    divideX 7 2 ≠ some (minmaxI (-128) (roundHalfAwayQ ((7 : ℚ) / 2)) 127) := by
  have h1 : roundHalfAwayQ ((7:ℚ)/2) = 4 := by
    norm_num [roundHalfAwayQ, ratTrunc]
  have h2 : divideX 7 2 = some 3 := by decide
  rw [h1, h2]
  decide

/-- C5 (amended): `saturating::divide` (functions.hpp) returns the clamp to
`[MIN, MAX]` of the nearest integer to the exact quotient `a/b` with ties
rounded away from zero - computed as `(a + b/2)/b` for same-signed and
`(a - b/2)/b` for opposite-signed operands in native truncating division -
for every pair of integer operands representable in the common operand type
`[cLo, cHi]` whose bias numerator and quotient stay inside that type (the
bias arithmetic runs in the *unwidened* common type, so outside these
conditions it wraps for unsigned common types and is undefined behaviour for
signed ones); the alternate-draft `xint_sat_t::divide` does not round at
all - it uses native truncating division directly. -/
theorem divide_rounds_nearest (cLo cHi MIN MAX a b : ℤ) (hb : b ≠ 0)
    (ha1 : cLo ≤ a) (ha2 : a ≤ cHi) (hb1 : cLo ≤ b) (hb2 : b ≤ cHi)
    (hn1 : cLo ≤ divNum cLo cHi a b) (hn2 : divNum cLo cHi a b ≤ cHi)
    (hq1 : cLo ≤ cppDiv (divNum cLo cHi a b) b)
    (hq2 : cppDiv (divNum cLo cHi a b) b ≤ cHi) :
    divideF cLo cHi MIN MAX a b =
      some (minmaxI MIN (roundHalfAwayQ ((a : ℚ) / b)) MAX) := by
  have haC : wrapCast cLo cHi a = a := wrapCastId cLo cHi a ha1 ha2
  have hbC : wrapCast cLo cHi b = b := wrapCastId cLo cHi b hb1 hb2
  have hdn : divNum cLo cHi a b =
      (if (a < 0) ↔ (b < 0) then a + cppDiv b 2 else a - cppDiv b 2) := by
    unfold divNum
    rw [haC, hbC]
  unfold divideF
  rw [hbC]
  rw [if_neg hb]
  rw [if_pos ⟨hn1, hn2⟩]
  rw [if_pos ⟨hq1, hq2⟩]
  rw [hdn, divRoundEq a b hb]

/-- Witness for C5 at `a = 7, b = 2` (`int` operands, common type `int`)
over the 8-bit signed bound: the result is the clamp of the rounded 3.5. -/
theorem divide_rounds_nearest_witness :
    divideF (-2147483648) 2147483647 (-128) 127 7 2 =
      some (minmaxI (-128) (roundHalfAwayQ ((7 : ℚ) / 2)) 127) :=
  divide_rounds_nearest (-2147483648) 2147483647 (-128) 127 7 2
    (by decide) (by decide) (by decide) (by decide) (by decide)
    (by decide) (by decide) (by decide) (by decide)

/-! ## C6: raw construction versus assignment -/

/-- C6 counterexample: the claim states that `operator=` stores a raw
arithmetic value unchanged even outside `[MIN, MAX]`.  For
`xint_sat_t<int8_t, 10, 20>` assigned the `int` value 100 (common comparison
type `int`, all comparisons exact), `operator=` calls `clamp`
(saturating_types.hpp line 229) and stores 20, not 100. -/
theorem assign_clamps_counterexample :
    ¬(opAssignX (-2147483648) 2147483647 (-2147483648) 2147483647
        (-128) 127 10 20 100 = 100) := by
  decide

/-- C6 (amended): constructing from a raw value of the representation type
(range `[tLo, tHi]`) stores the value unchanged without clamping, even when
it lies outside `[MIN, MAX]`; `operator=`, however, clamps: at every
instantiation whose common comparison type `[cLo, cHi]` represents the
argument type's range and the representation's range exactly, it stores the
textbook clamp `max MIN (min v MAX)` (for normally oriented bounds).  At
mixed signed/unsigned instantiations whose contained-range check wraps,
assignment instead degenerates to the same raw cast as construction:
assigning the `int` value -5 to `uint_sat32_t` stores 4294967291. -/
theorem ctor_raw_assign_clamps (cLo cHi uLo uHi tLo tHi MIN MAX v : ℤ) :
    (tLo ≤ v → v ≤ tHi → ctorX tLo tHi MIN MAX v = v) ∧
    (cLo ≤ uLo → uHi ≤ cHi → cLo ≤ tLo → tHi ≤ cHi → tLo ≤ MIN →
      MIN ≤ MAX → MAX ≤ tHi → uLo ≤ v → v ≤ uHi →
      opAssignX cLo cHi uLo uHi tLo tHi MIN MAX v = max MIN (min v MAX)) ∧
    opAssignX 0 4294967295 (-2147483648) 2147483647 0 4294967295
        0 4294967295 (-5) = 4294967291 := by
  refine ⟨?_, ?_, by decide⟩
  · intro h1 h2
    unfold ctorX
    rw [wrapCastId tLo tHi v h1 h2]
  · intro hc1 hc2 hc3 hc4 ht1 ht2 ht3 hu1 hu2
    unfold opAssignX clampX
    rw [wrapCastId cLo cHi MIN (by omega) (by omega),
        wrapCastId cLo cHi uLo (by omega) (by omega),
        wrapCastId cLo cHi uHi (by omega) (by omega),
        wrapCastId cLo cHi MAX (by omega) (by omega),
        wrapCastId cLo cHi v (by omega) (by omega)]
    split_ifs with h1 h2 h3 h4 h5 h6
    all_goals try omega
    all_goals rw [wrapCastId tLo tHi v (by omega) (by omega)]
    all_goals omega

/-- Witness for C6 over `xint_sat_t<int8_t, 10, 20>` with `int` arguments:
raw construction from 100 stores 100 (outside `[10, 20]`), while assignment
of 100 stores `max 10 (min 100 20) = 20`. -/
theorem ctor_raw_assign_clamps_witness :
    ctorX (-128) 127 10 20 100 = 100 ∧
      opAssignX (-2147483648) 2147483647 (-2147483648) 2147483647
        (-128) 127 10 20 100 = max 10 (min 100 20) :=
  ⟨(ctor_raw_assign_clamps (-2147483648) 2147483647 (-2147483648) 2147483647
      (-128) 127 10 20 100).1 (by decide) (by decide),
    (ctor_raw_assign_clamps (-2147483648) 2147483647 (-2147483648) 2147483647
      (-128) 127 10 20 100).2.1 (by decide) (by decide) (by decide)
      (by decide) (by decide) (by decide) (by decide) (by decide) (by decide)⟩

/-! ## C8: increment and decrement saturate one unit short of the bound -/

/-- C8: increment adds exactly one when `v < MAX - 1` and otherwise leaves
the value unchanged; decrement subtracts exactly one when `v > MIN + 1` and
otherwise leaves the value unchanged; in particular a value already at
`MAX - 1` stays at `MAX - 1` under increment, never reaching `MAX`. -/
theorem inc_dec_saturate_one_short (MIN MAX v : ℤ) :
    (v < MAX - 1 → incX MAX v = v + 1) ∧
    (¬(v < MAX - 1) → incX MAX v = v) ∧
    (MIN + 1 < v → decX MIN v = v - 1) ∧
    (¬(MIN + 1 < v) → decX MIN v = v) ∧
    incX MAX (MAX - 1) = MAX - 1 ∧
    decX MIN (MIN + 1) = MIN + 1 := by
  unfold incX decX
  refine ⟨?_, ?_, ?_, ?_, ?_, ?_⟩ <;> try (intro h; split_ifs <;> omega)
  all_goals split_ifs <;> omega

/-- Witness for C8 over `uint_sat8_t` (`MIN = 0`, `MAX = 255`): incrementing
5 gives 6, and incrementing 254 = `MAX - 1` leaves it at 254. -/
theorem inc_dec_saturate_one_short_witness :
    incX 255 5 = 6 ∧ incX 255 254 = 254 :=
  ⟨(inc_dec_saturate_one_short 0 255 5).1 (by decide),
    (inc_dec_saturate_one_short 0 255 254).2.1 (by decide)⟩

/-! ## C9: scale_from with the defaulted source range -/

/-- C9 counterexample: the claim states
`int_sat8_t::scale_from(0.25)` (defaulted source range `(-1, 1)`) returns
`round(0.25 * 127) = 32`; the code returns 31. -/
theorem scale_from_default_not_32 :
    ¬(scaleFromFD (-128) 127 true (1/4) = 32) := by
  norm_num [scaleFromFD, ratTrunc]

/-- C9 (amended): with the caller-unspecified source range - which defaults
to `(-1, 1)` for signed destination representations and `(0, 1)` for
unsigned ones - `int_sat8_t::scale_from(0.25)` returns 31, the truncation of
`(0.25 - (-1)) * 255 / 2 + (-128) + 0.5 = 31.875` (not `round(0.25 * 127) =
32`); the unsigned 8-bit instance returns `trunc(0.25 * 255 + 0.5) = 64`. -/
theorem scale_from_default_is_31 :
    scaleFromFD (-128) 127 true (1/4) = 31 ∧
    scaleFromFD 0 255 false (1/4) = 64 := by
  constructor <;> norm_num [scaleFromFD, ratTrunc]

/-! ## C10: mixed float/int addition rounds the float operand first -/

/-- C10: when exactly one operand of `add` is floating and the destination
is integral, the floating operand is rounded by itself before the sum; when
both are floating the sum is rounded.  At `a = -0.5, b = 1` over the 8-bit
signed bound the mixed-operand path gives `lround(-0.5) + 1 = 0`, the
both-float path gives `lround(0.5) = 1`, and rounding the exact sum half
away from zero also gives 1, so the mixed result differs from rounding the
exact sum. -/
theorem mixed_add_rounds_operand_first :
    addFMixed (-128) 127 (-1/2) 1 = 0 ∧
    addFBoth (-128) 127 (-1/2) 1 = 1 ∧
    roundHalfAwayQ ((-1/2) + 1) = 1 := by
  have hc : ⌈(-1 : ℚ)⌉ = (-1 : ℤ) := by
    rw [show ((-1:ℚ)) = ((-1 : ℤ) : ℚ) by norm_num]
    exact Int.ceil_intCast _
  refine ⟨?_, ?_, ?_⟩
  · norm_num [addFMixed, minmaxI, roundHalfAwayQ, ratTrunc, hc]
  · norm_num [addFBoth, minmaxI, roundHalfAwayQ, ratTrunc]
  · norm_num [roundHalfAwayQ, ratTrunc]
